import Mathlib

/-!
# Verification of the capacity-driven demand generator

Shallow embedding of `src/src/demand_generator.cpp` (class `DemandGenerator`,
version 2.0).  C++ `double` arithmetic is modelled as exact rational
arithmetic (`ℚ`); C++ `int` dimensions and indices as `ℕ` (with the one
signed cast, `static_cast<int>` of the demand-point count, modelled on `ℤ`).

The Mersenne-twister stream and the `<random>` distributions are abstracted
as oracles: `uniforms` supplies the successive `uniform_real_distribution`
outputs used by the weight generators, `powf` models `std::pow`, and `draws`
supplies, per generated point, the outputs of the three
`discrete_distribution` samplers together with the candidate amount drawn
from `amount_dist`.  All theorems quantify over these oracles; range
constraints that the real distributions guarantee (indices below the axis
sizes, candidate amounts inside `[min_demand, max_demand)`) appear as
explicit hypotheses or explicit conjuncts where they matter.
-/

namespace GMNTG

/-- Configuration of the capacity-driven generator
(`DemandGenConfig` in `demand_generator.h`). -/
structure DemandGenConfig where
  U : ℕ
  I : ℕ
  T : ℕ
  default_capacity : ℚ
  unit_sX : ℚ
  unit_sY : ℚ
  capacity_utilization : ℚ
  demand_intensity : ℚ
  initial_inventory_ratio : ℚ
  time_concentration : ℚ
  node_concentration : ℚ
  item_concentration : ℚ
  random_seed : ℕ
  demand_size_variance : ℚ
deriving DecidableEq, Repr

/-- One generated demand point (`DemandEntry` in `case_generator.h`):
node, item, period, amount. -/
structure DemandEntry where
  u : ℕ
  i : ℕ
  t : ℕ
  amount : ℚ
deriving DecidableEq, Repr

/-- The data carried by the `std::runtime_error` thrown by
`VerifyFeasibility`: offending node, period, computed usage, and the
cell's capacity budget. -/
structure FeasError where
  node : ℕ
  period : ℕ
  usage : ℚ
  capacity : ℚ
deriving DecidableEq, Repr

/-- The random draws consumed by one iteration of the demand-point loop:
the three `discrete_distribution` outputs (period `t`, node `u`, item `i`)
and the `amount_dist` output `cand`. -/
structure Draw where
  t : ℕ
  u : ℕ
  i : ℕ
  cand : ℚ
deriving DecidableEq, Repr

instance {ε α : Type} [DecidableEq ε] [DecidableEq α] :
    DecidableEq (Except ε α) := fun a b =>
  match a, b with
  | .ok x, .ok y =>
      if h : x = y then .isTrue (by rw [h]) else
        .isFalse (fun hh => h (Except.ok.injEq x y ▸ hh))
  | .error x, .error y =>
      if h : x = y then .isTrue (by rw [h]) else
        .isFalse (fun hh => h (Except.error.injEq x y ▸ hh))
  | .ok _, .error _ => .isFalse (fun hh => Except.noConfusion hh)
  | .error _, .ok _ => .isFalse (fun hh => Except.noConfusion hh)

attribute [local semireducible] Rat.add Rat.mul Rat.inv Rat.sub

/-- `static_cast<int>` on a `double`: truncation toward zero. -/
def ratTrunc (q : ℚ) : ℤ :=
  if 0 ≤ q then ⌊q⌋ else ⌈q⌉

/-- `total_demand_points = static_cast<int>(U * I * T * demand_intensity)`
(`Generate`, lines 34–36). -/
def truncN (cfg : DemandGenConfig) : ℤ :=
  ratTrunc (((cfg.U * cfg.I * cfg.T : ℕ) : ℚ) * cfg.demand_intensity)

/-- The key sequence of the `std::map<std::pair<int,int>, double>` built by
`CalculateAvailableCapacity`: all pairs `(u, t)` with `u < U`, `t < T`,
in the lexicographic order in which `std::map` stores and iterates them. -/
def lexKeys (U T : ℕ) : List (ℕ × ℕ) :=
  (List.range U).flatMap (fun u => (List.range T).map (fun t => (u, t)))

/-- The per-cell available capacity computed inside the double loop of
`CalculateAvailableCapacity` (lines 85–99): raw capacity minus the
estimated setup overhead, floored at zero, scaled by the utilization
target.  The computed value does not depend on the cell. -/
def cellCapacity (cfg : DemandGenConfig) : ℚ :=
  let avg_setups_per_period : ℚ := (cfg.I : ℚ) * cfg.demand_intensity
  let setup_overhead := avg_setups_per_period * cfg.unit_sY
  let total_cap := cfg.default_capacity
  let available_cap := total_cap - setup_overhead
  let available_cap := if available_cap < 0 then 0 else available_cap
  available_cap * cfg.capacity_utilization

/-- `CalculateAvailableCapacity` (lines 72–101): the association list
`(u, t) ↦ cellCapacity cfg` over all cells, in `std::map` key order. -/
def calculateAvailableCapacity (cfg : DemandGenConfig) : List ((ℕ × ℕ) × ℚ) :=
  (lexKeys cfg.U cfg.T).map (fun k => (k, cellCapacity cfg))

/-- Reading the capacity map at a key (`available_capacity[key]` /
`available_capacity.at(key)` on a key that is present). -/
def capLookup (capList : List ((ℕ × ℕ) × ℚ)) (k : ℕ × ℕ) : ℚ :=
  (capList.lookup k).getD 0

/-- The capacity budget of a cell as the generator reads it. -/
def capFn (cfg : DemandGenConfig) : ℕ × ℕ → ℚ :=
  capLookup (calculateAvailableCapacity cfg)

/-- The key sequence of the capacity map, in iteration order. -/
def capKeys (cfg : DemandGenConfig) : List (ℕ × ℕ) :=
  (calculateAvailableCapacity cfg).map Prod.fst

/-- `total_capacity`: the sum of the map's values (lines 200–203). -/
def totalCapacity (capList : List ((ℕ × ℕ) × ℚ)) : ℚ :=
  (capList.map Prod.snd).foldl (· + ·) 0

/-- The `[min_demand, max_demand]` bounds of `amount_dist`
(lines 210–219): average per-point capacity over the requested count,
converted to an amount, spread by the variance, floored at `1`
respectively `min_demand + 1`. -/
def amountBounds (cfg : DemandGenConfig) (total_capacity : ℚ) (n : ℕ) : ℚ × ℚ :=
  let avg_demand_capacity := total_capacity / (n : ℚ)
  let avg_demand_amount := avg_demand_capacity / cfg.unit_sX
  let min_demand := max 1 (avg_demand_amount * (1 - cfg.demand_size_variance))
  let max_demand := max (min_demand + 1) (avg_demand_amount * (1 + cfg.demand_size_variance))
  (min_demand, max_demand)

/-- Mutable state of the demand-point loop: the `used_capacity` map
(modelled as a total function defaulting to `0`, matching `operator[]`
value-initialization) and the `demands` vector. -/
structure GenState where
  used : ℕ × ℕ → ℚ
  demands : List DemandEntry

/-- Lines 293–298: clamp the drawn candidate to the cell's remaining
budget expressed as an amount, then floor the result at `1`. -/
def clampAmount (cfg : DemandGenConfig) (cand avail : ℚ) : ℚ :=
  max 1 (min cand (avail / cfg.unit_sX))

/-- Lines 293–304: compute the final amount, charge it to
`used_capacity[key]`, and append the demand entry `{u, i, t, amount}`. -/
def emitPoint (cfg : DemandGenConfig) (key : ℕ × ℕ) (i : ℕ) (cand avail : ℚ)
    (st : GenState) : GenState :=
  let amount := clampAmount cfg cand avail
  { used := fun k => if k = key then st.used k + amount * cfg.unit_sX else st.used k
    demands := st.demands ++ [⟨key.1, i, key.2, amount⟩] }

/-- One iteration of the loop at lines 258–305: look up the drawn cell's
remaining capacity; on exhaustion scan the capacity map in key order for
any cell with a positive remainder, dropping the point when none exists;
otherwise emit a point into the selected cell. -/
def genStep (cfg : DemandGenConfig) (cap : ℕ × ℕ → ℚ) (keys : List (ℕ × ℕ))
    (st : GenState) (d : Draw) : GenState :=
  let key := (d.u, d.t)
  let avail := cap key - st.used key
  if avail ≤ 0 then
    match keys.find? (fun k => decide (0 < cap k - st.used k)) with
    | some k => emitPoint cfg k d.i d.cand (cap k - st.used k) st
    | none => st
  else
    emitPoint cfg key d.i d.cand avail st

/-- The generation loop, folding `genStep` over the point indices. -/
def genLoop (cfg : DemandGenConfig) (cap : ℕ × ℕ → ℚ) (keys : List (ℕ × ℕ))
    (draws : ℕ → Draw) (idxs : List ℕ) (st : GenState) : GenState :=
  idxs.foldl (fun s idx => genStep cfg cap keys s (draws idx)) st

/-- `GeneratePeriodWeights` (lines 110–143): uniform weights when the
concentration is zero (no draws consumed); otherwise one uniform draw per
period, raised to `1 + 3·concentration` and normalized.  Returns the
weights together with the advanced cursor into the uniform-draw stream. -/
def generatePeriodWeights (cfg : DemandGenConfig) (uniforms : ℕ → ℚ)
    (powf : ℚ → ℚ → ℚ) (pos : ℕ) : List ℚ × ℕ :=
  if cfg.time_concentration = 0 then
    ((List.range cfg.T).map (fun _ => 1 / (cfg.T : ℚ)), pos)
  else
    let raw := (List.range cfg.T).map
      (fun j => powf (uniforms (pos + j)) (1 + cfg.time_concentration * 3))
    let total := raw.foldl (· + ·) 0
    (raw.map (· / total), pos + cfg.T)

/-- `GenerateNodeWeights` (lines 148–181): same shape over the node axis. -/
def generateNodeWeights (cfg : DemandGenConfig) (uniforms : ℕ → ℚ)
    (powf : ℚ → ℚ → ℚ) (pos : ℕ) : List ℚ × ℕ :=
  if cfg.node_concentration = 0 then
    ((List.range cfg.U).map (fun _ => 1 / (cfg.U : ℚ)), pos)
  else
    let raw := (List.range cfg.U).map
      (fun j => powf (uniforms (pos + j)) (1 + cfg.node_concentration * 3))
    let total := raw.foldl (· + ·) 0
    (raw.map (· / total), pos + cfg.U)

/-- The item-weight block inlined in `GenerateDemandPoints`
(lines 224–244): same shape over the item axis. -/
def generateItemWeights (cfg : DemandGenConfig) (uniforms : ℕ → ℚ)
    (powf : ℚ → ℚ → ℚ) (pos : ℕ) : List ℚ × ℕ :=
  if cfg.item_concentration = 0 then
    ((List.range cfg.I).map (fun _ => 1 / (cfg.I : ℚ)), pos)
  else
    let raw := (List.range cfg.I).map
      (fun j => powf (uniforms (pos + j)) (1 + cfg.item_concentration * 3))
    let total := raw.foldl (· + ·) 0
    (raw.map (· / total), pos + cfg.I)

/-- `GenerateDemandPoints` (lines 190–306): early return on non-positive
total capacity, amount bounds, item weights, then the per-point loop.
The three `discrete_distribution` samplers built from the weight vectors
are abstracted into the `draws` oracle. -/
def generateDemandPoints (cfg : DemandGenConfig) (capList : List ((ℕ × ℕ) × ℚ))
    (uniforms : ℕ → ℚ) (powf : ℚ → ℚ → ℚ) (pos : ℕ) (draws : ℕ → Draw)
    (total_demand_points : ℕ) : List DemandEntry :=
  let total_capacity := totalCapacity capList
  if total_capacity ≤ 0 then []
  else
    let _bounds := amountBounds cfg total_capacity total_demand_points
    let _item_weights := generateItemWeights cfg uniforms powf pos
    let keys := capList.map Prod.fst
    let cap := capLookup capList
    (genLoop cfg cap keys draws (List.range total_demand_points)
      { used := fun _ => 0, demands := [] }).demands

/-- The per-cell usage recomputed by `VerifyFeasibility` from the emitted
demand list (lines 321–326): `Σ amount · unit_sX` over the entries of the
cell. -/
def actualUsage (cfg : DemandGenConfig) (demands : List DemandEntry)
    (k : ℕ × ℕ) : ℚ :=
  (demands.filter (fun d => decide ((d.u, d.t) = k))).foldl
    (fun acc d => acc + d.amount * cfg.unit_sX) 0

/-- The key sequence of the `actual_usage` map: the capacity map's keys
restricted to cells that some demand entry touches (the demand entries of
a generator run only ever touch keys of the capacity map). -/
def presentKeys (keys : List (ℕ × ℕ)) (demands : List DemandEntry) :
    List (ℕ × ℕ) :=
  keys.filter (fun k => demands.any (fun d => decide ((d.u, d.t) = k)))

/-- `VerifyFeasibility` (lines 315–345): recompute per-cell usage and
throw, at the first offending cell in key order, when usage exceeds the
budget by more than the 1% tolerance. -/
def verifyFeasibility (cfg : DemandGenConfig) (demands : List DemandEntry)
    (capList : List ((ℕ × ℕ) × ℚ)) : Except FeasError Unit :=
  let cap := capLookup capList
  match (presentKeys (capList.map Prod.fst) demands).find?
      (fun k => decide (cap k * (101 / 100) < actualUsage cfg demands k)) with
  | some k => .error ⟨k.1, k.2, actualUsage cfg demands k, cap k⟩
  | none => .ok ()

/-- The demand list produced by steps 3–6 of `Generate` (lines 42–57):
capacity map, period weights, node weights (threading the uniform-draw
cursor), then the point loop. -/
def generatedDemands (cfg : DemandGenConfig) (uniforms : ℕ → ℚ)
    (powf : ℚ → ℚ → ℚ) (draws : ℕ → Draw) : List DemandEntry :=
  let capList := calculateAvailableCapacity cfg
  let pw := generatePeriodWeights cfg uniforms powf 0
  let nw := generateNodeWeights cfg uniforms powf pw.2
  generateDemandPoints cfg capList uniforms powf nw.2 draws (truncN cfg).toNat

/-- `DemandGenerator::Generate` (lines 27–63): early return on a zero
point count, otherwise generate and verify; a verification failure
propagates as the thrown error, aborting generation. -/
def Generate (cfg : DemandGenConfig) (uniforms : ℕ → ℚ)
    (powf : ℚ → ℚ → ℚ) (draws : ℕ → Draw) :
    Except FeasError (List DemandEntry) :=
  if truncN cfg = 0 then .ok []
  else
    match verifyFeasibility cfg (generatedDemands cfg uniforms powf draws)
        (calculateAvailableCapacity cfg) with
    | .ok _ => .ok (generatedDemands cfg uniforms powf draws)
    | .error e => .error e

/-- A deterministic model of the seeded random source: the seed selects
the uniform-draw stream and the per-point draw stream (`std::mt19937
rng(config.random_seed)` followed by the distribution calls). -/
structure RngFamily where
  uniforms : ℕ → ℕ → ℚ
  draws : ℕ → ℕ → Draw

/-- `Generate` as called by the program: the random streams are derived
from the configuration's seed. -/
def GenerateSeeded (fam : RngFamily) (powf : ℚ → ℚ → ℚ)
    (cfg : DemandGenConfig) : Except FeasError (List DemandEntry) :=
  Generate cfg (fam.uniforms cfg.random_seed) powf (fam.draws cfg.random_seed)

/-- Strict lexicographic order on `(node, period)` keys: the comparison
`std::map<std::pair<int,int>, double>` sorts and iterates by. -/
def keyLt (a b : ℕ × ℕ) : Prop :=
  a.1 < b.1 ∨ (a.1 = b.1 ∧ a.2 < b.2)

/-! ## Fixed concrete inputs used by the claims -/

/-- All-zero stand-in for the uniform-draw stream (the weight vectors it
feeds do not influence the abstracted per-point draws). -/
def zeroUniforms : ℕ → ℚ := fun _ => 0

/-- All-zero stand-in for `std::pow`. -/
def zeroPow : ℚ → ℚ → ℚ := fun _ _ => 0

/-- Configuration exhibiting the feasibility failure: one node, one item,
two periods, raw capacity 2, unit production cost 1, no setup cost, full
utilization and intensity (so two points are requested and each cell's
budget is 2). -/
def cfgC1 : DemandGenConfig :=
  { U := 1, I := 1, T := 2
    default_capacity := 2, unit_sX := 1, unit_sY := 0
    capacity_utilization := 1, demand_intensity := 1
    initial_inventory_ratio := 0
    time_concentration := 0, node_concentration := 0, item_concentration := 0
    random_seed := 42, demand_size_variance := 3 / 10 }

/-- Draw sequence for `cfgC1`: both points land on cell `(0, 0)`; the
first candidate `1.7` leaves a remainder of `0.3`, the second is floored
up to amount `1`, pushing the cell's usage to `2.7 > 2 · 1.01`. -/
def drawsC1 : ℕ → Draw :=
  fun k => if k = 0 then ⟨0, 0, 0, 17 / 10⟩ else ⟨0, 0, 0, 3 / 2⟩

/-- The spec's §8 sanity scenario: `U = I = T = 1`, raw capacity 100,
unit cost 1, no setup cost, full utilization and intensity. -/
def cfgS : DemandGenConfig :=
  { U := 1, I := 1, T := 1
    default_capacity := 100, unit_sX := 1, unit_sY := 0
    capacity_utilization := 1, demand_intensity := 1
    initial_inventory_ratio := 0
    time_concentration := 0, node_concentration := 0, item_concentration := 0
    random_seed := 42, demand_size_variance := 3 / 10 }

/-- `cfgS` with the demand intensity set to zero. -/
def cfg8 : DemandGenConfig :=
  { cfgS with demand_intensity := 0 }

/-- Capacity map for the C2 counterexample: every cell holds budget 2. -/
def capC2 : ℕ × ℕ → ℚ := fun _ => 2

/-- Loop state for the C2 counterexample: cell `(0, 0)` already carries a
usage of `1.7`, so its remaining budget is `0.3`. -/
def stC2 : GenState :=
  { used := fun k => if k = (0, 0) then 17 / 10 else 0, demands := [] }

/-- Draw for the C2 counterexample: the candidate amount `1.5` gets
clamped to `0.3` and then floored back up to `1`. -/
def dC2 : Draw := ⟨0, 0, 0, 3 / 2⟩

/-- Capacity map/state/draw for the C2 witness: untouched cell of
budget 10, candidate 5. -/
def capW : ℕ × ℕ → ℚ := fun _ => 10

def stW : GenState := { used := fun _ => 0, demands := [] }

def dW : Draw := ⟨0, 0, 0, 5⟩

/-- `cfgS` with the target utilization zeroed out, so every cell's
budget is zero and no cell ever has a positive remainder. -/
def cfg6 : DemandGenConfig :=
  { cfgS with capacity_utilization := 0 }

def st6 : GenState := { used := fun _ => 0, demands := [] }

def d6 : Draw := ⟨0, 0, 0, 1⟩

/-! ## Helper lemmas -/


theorem mem_lexKeys {U T u t : ℕ} : (u, t) ∈ lexKeys U T ↔ u < U ∧ t < T := by
  simp only [lexKeys, List.mem_flatMap, List.mem_map, List.mem_range,
    Prod.mk.injEq]
  constructor
  · rintro ⟨a, ha, b, hb, rfl, rfl⟩
    exact ⟨ha, hb⟩
  · rintro ⟨hu, ht⟩
    exact ⟨u, hu, t, ht, rfl, rfl⟩

theorem lexKeys_pairwise (U T : ℕ) : (lexKeys U T).Pairwise keyLt := by
  rw [lexKeys, List.pairwise_flatMap]
  constructor
  · intro a _
    rw [List.pairwise_map]
    exact (List.pairwise_lt_range T).imp (fun h => Or.inr ⟨rfl, h⟩)
  · refine (List.pairwise_lt_range U).imp ?_
    intro a b hab x hx y hy
    simp only [List.mem_map, List.mem_range] at hx hy
    obtain ⟨_, _, rfl⟩ := hx
    obtain ⟨_, _, rfl⟩ := hy
    exact Or.inl hab

theorem lookup_map_pair {α β : Type} [BEq α] [LawfulBEq α] (v : β) :
    ∀ (l : List α) (k : α), k ∈ l → (l.map (fun x => (x, v))).lookup k = some v := by
  intro l
  induction l with
  | nil => intro k hk; cases hk
  | cons a l ih =>
    intro k hk
    rw [List.map_cons, List.lookup_cons]
    by_cases h : k = a
    · subst h; rw [beq_self_eq_true]
    · have hb : (k == a) = false := beq_eq_false_iff_ne.mpr h
      rw [hb]
      rcases List.mem_cons.mp hk with rfl | hm
      · exact absurd rfl h
      · exact ih k hm

theorem capFn_eq_cellCapacity (cfg : DemandGenConfig) {u t : ℕ}
    (hu : u < cfg.U) (ht : t < cfg.T) :
    capFn cfg (u, t) = cellCapacity cfg := by
  rw [capFn, capLookup, calculateAvailableCapacity,
    lookup_map_pair _ _ _ (mem_lexKeys.mpr ⟨hu, ht⟩), Option.getD_some]

theorem cellCapacity_eq_max (cfg : DemandGenConfig) :
    cellCapacity cfg =
      max 0 (cfg.default_capacity - (cfg.I : ℚ) * cfg.demand_intensity * cfg.unit_sY)
        * cfg.capacity_utilization := by
  rw [cellCapacity]
  rcases lt_or_le (cfg.default_capacity - (cfg.I : ℚ) * cfg.demand_intensity * cfg.unit_sY) 0
    with h | h
  · rw [if_pos h, max_eq_left h.le]
  · rw [if_neg (not_lt.mpr h), max_eq_right h]


/-! ## Claims -/

/-- C5: the capacity budget read by the generator is, at every cell
`(u, t)` with `u < U`, `t < T`, the pure, randomness-free value
`max(0, raw_capacity − I · demand_intensity · unit_sY) · utilization`;
the right-hand side does not depend on the cell, so every pair gets the
same budget. -/
theorem capacity_budget_formula (cfg : DemandGenConfig) (u t : ℕ)
    (hu : u < cfg.U) (ht : t < cfg.T) :
    capFn cfg (u, t) =
      max 0 (cfg.default_capacity - (cfg.I : ℚ) * cfg.demand_intensity * cfg.unit_sY)
        * cfg.capacity_utilization := by
  rw [capFn_eq_cellCapacity cfg hu ht, cellCapacity_eq_max]

theorem capacity_budget_formula_witness :
    0 < cfgS.U ∧ 0 < cfgS.T ∧
      capFn cfgS (0, 0) =
        max 0 (cfgS.default_capacity - (cfgS.I : ℚ) * cfgS.demand_intensity * cfgS.unit_sY)
          * cfgS.capacity_utilization :=
  ⟨by decide, by decide, capacity_budget_formula cfgS 0 0 (by decide) (by decide)⟩

/-- C7: for each axis whose concentration parameter is zero, the weight
vector is exactly `1/n` in every entry and the cursor into the
uniform-draw stream is returned unchanged (no draws consumed). -/
theorem uniform_concentration_weights (cfg : DemandGenConfig)
    (uniforms : ℕ → ℚ) (powf : ℚ → ℚ → ℚ) (pos : ℕ) :
    (cfg.time_concentration = 0 →
      generatePeriodWeights cfg uniforms powf pos
        = (List.replicate cfg.T (1 / (cfg.T : ℚ)), pos))
    ∧ (cfg.node_concentration = 0 →
      generateNodeWeights cfg uniforms powf pos
        = (List.replicate cfg.U (1 / (cfg.U : ℚ)), pos))
    ∧ (cfg.item_concentration = 0 →
      generateItemWeights cfg uniforms powf pos
        = (List.replicate cfg.I (1 / (cfg.I : ℚ)), pos)) := by
  refine ⟨fun h => ?_, fun h => ?_, fun h => ?_⟩
  · rw [generatePeriodWeights, if_pos h, List.map_const', List.length_range]
  · rw [generateNodeWeights, if_pos h, List.map_const', List.length_range]
  · rw [generateItemWeights, if_pos h, List.map_const', List.length_range]

theorem uniform_concentration_weights_witness :
    cfgS.time_concentration = 0 ∧ cfgS.node_concentration = 0
    ∧ cfgS.item_concentration = 0
    ∧ generatePeriodWeights cfgS zeroUniforms zeroPow 0
        = (List.replicate cfgS.T (1 / (cfgS.T : ℚ)), 0)
    ∧ generateNodeWeights cfgS zeroUniforms zeroPow 0
        = (List.replicate cfgS.U (1 / (cfgS.U : ℚ)), 0)
    ∧ generateItemWeights cfgS zeroUniforms zeroPow 0
        = (List.replicate cfgS.I (1 / (cfgS.I : ℚ)), 0) :=
  ⟨rfl, rfl, rfl,
    (uniform_concentration_weights cfgS zeroUniforms zeroPow 0).1 rfl,
    (uniform_concentration_weights cfgS zeroUniforms zeroPow 0).2.1 rfl,
    (uniform_concentration_weights cfgS zeroUniforms zeroPow 0).2.2 rfl⟩

/-- C3: the generator is deterministic in its configuration.  With the
seeded random source modelled as any fixed deterministic function of the
seed, two calls with equal configurations (the seed included) return
equal demand lists, element for element. -/
theorem generate_deterministic (fam : RngFamily) (powf : ℚ → ℚ → ℚ)
    (cfg₁ cfg₂ : DemandGenConfig) (h : cfg₁ = cfg₂) :
    GenerateSeeded fam powf cfg₁ = GenerateSeeded fam powf cfg₂ := by
  rw [h]

theorem generate_deterministic_witness :
    cfgS = cfgS ∧
      GenerateSeeded ⟨fun _ _ => 0, fun _ _ => ⟨0, 0, 0, 100⟩⟩ zeroPow cfgS
        = GenerateSeeded ⟨fun _ _ => 0, fun _ _ => ⟨0, 0, 0, 100⟩⟩ zeroPow cfgS :=
  ⟨rfl, generate_deterministic ⟨fun _ _ => 0, fun _ _ => ⟨0, 0, 0, 100⟩⟩ zeroPow cfgS cfgS rfl⟩

/-- C8: a zero demand intensity forces a zero requested point count, and
a zero requested point count makes `Generate` return the empty demand
list at once — before the capacity map, the weight vectors or the
used-capacity state exist, as witnessed by the result not depending on
any of the random oracles. -/
theorem zero_intensity_returns_empty (cfg : DemandGenConfig)
    (uniforms : ℕ → ℚ) (powf : ℚ → ℚ → ℚ) (draws : ℕ → Draw) :
    (cfg.demand_intensity = 0 → truncN cfg = 0)
    ∧ (truncN cfg = 0 → Generate cfg uniforms powf draws = .ok []) := by
  constructor
  · intro h
    rw [truncN, h, mul_zero, ratTrunc, if_pos le_rfl, Int.floor_zero]
  · intro h
    rw [Generate, if_pos h]

theorem zero_intensity_returns_empty_witness :
    cfg8.demand_intensity = 0 ∧ truncN cfg8 = 0
    ∧ Generate cfg8 zeroUniforms zeroPow (fun _ => ⟨0, 0, 0, 0⟩) = .ok [] :=
  ⟨rfl,
    (zero_intensity_returns_empty cfg8 zeroUniforms zeroPow (fun _ => ⟨0, 0, 0, 0⟩)).1 rfl,
    (zero_intensity_returns_empty cfg8 zeroUniforms zeroPow (fun _ => ⟨0, 0, 0, 0⟩)).2
      ((zero_intensity_returns_empty cfg8 zeroUniforms zeroPow (fun _ => ⟨0, 0, 0, 0⟩)).1 rfl)⟩

/-- One loop iteration either drops the point (state returned unchanged)
or appends exactly one entry, whose amount carries the floor at `1`. -/
theorem genStep_demands_shape (cfg : DemandGenConfig) (cap : ℕ × ℕ → ℚ)
    (keys : List (ℕ × ℕ)) (st : GenState) (d : Draw) :
    (genStep cfg cap keys st d).demands = st.demands
    ∨ ∃ p : DemandEntry,
        (genStep cfg cap keys st d).demands = st.demands ++ [p] ∧ 1 ≤ p.amount := by
  rw [genStep]
  by_cases h : cap (d.u, d.t) - st.used (d.u, d.t) ≤ 0
  · rw [if_pos h]
    cases hf : keys.find? (fun k => decide (0 < cap k - st.used k)) with
    | none => exact Or.inl rfl
    | some k => exact Or.inr ⟨_, rfl, le_max_left _ _⟩
  · rw [if_neg h]
    exact Or.inr ⟨_, rfl, le_max_left _ _⟩

theorem genLoop_length_le (cfg : DemandGenConfig) (cap : ℕ × ℕ → ℚ)
    (keys : List (ℕ × ℕ)) (draws : ℕ → Draw) :
    ∀ (idxs : List ℕ) (st : GenState),
      (genLoop cfg cap keys draws idxs st).demands.length
        ≤ st.demands.length + idxs.length := by
  intro idxs
  induction idxs with
  | nil => intro st; simp [genLoop]
  | cons a l ih =>
    intro st
    have hstep : (genStep cfg cap keys st (draws a)).demands.length
        ≤ st.demands.length + 1 := by
      rcases genStep_demands_shape cfg cap keys st (draws a) with h | ⟨p, hp, _⟩
      · rw [h]; exact Nat.le_succ _
      · rw [hp, List.length_append, List.length_singleton]
    have htail := ih (genStep cfg cap keys st (draws a))
    show (genLoop cfg cap keys draws l (genStep cfg cap keys st (draws a))).demands.length ≤ _
    calc (genLoop cfg cap keys draws l (genStep cfg cap keys st (draws a))).demands.length
        ≤ (genStep cfg cap keys st (draws a)).demands.length + l.length := htail
      _ ≤ st.demands.length + 1 + l.length := Nat.add_le_add_right hstep _
      _ = st.demands.length + (a :: l).length := by
          rw [List.length_cons]; omega

theorem genLoop_amount_ge_one (cfg : DemandGenConfig) (cap : ℕ × ℕ → ℚ)
    (keys : List (ℕ × ℕ)) (draws : ℕ → Draw) :
    ∀ (idxs : List ℕ) (st : GenState),
      (∀ p ∈ st.demands, 1 ≤ p.amount) →
      ∀ p ∈ (genLoop cfg cap keys draws idxs st).demands, 1 ≤ p.amount := by
  intro idxs
  induction idxs with
  | nil => intro st h; exact h
  | cons a l ih =>
    intro st h
    refine ih (genStep cfg cap keys st (draws a)) ?_
    rcases genStep_demands_shape cfg cap keys st (draws a) with hs | ⟨q, hq, hq1⟩
    · rw [hs]; exact h
    · rw [hq]
      intro p hp
      rcases List.mem_append.mp hp with hp | hp
      · exact h p hp
      · rw [List.mem_singleton.mp hp]; exact hq1

theorem generatedDemands_length_le (cfg : DemandGenConfig)
    (uniforms : ℕ → ℚ) (powf : ℚ → ℚ → ℚ) (draws : ℕ → Draw) :
    (generatedDemands cfg uniforms powf draws).length ≤ (truncN cfg).toNat := by
  rw [generatedDemands, generateDemandPoints]
  split
  · exact Nat.zero_le _
  · have := genLoop_length_le cfg
      (capLookup (calculateAvailableCapacity cfg))
      ((calculateAvailableCapacity cfg).map Prod.fst) draws
      (List.range (truncN cfg).toNat) { used := fun _ => 0, demands := [] }
    simpa using this

theorem generatedDemands_amounts (cfg : DemandGenConfig)
    (uniforms : ℕ → ℚ) (powf : ℚ → ℚ → ℚ) (draws : ℕ → Draw) :
    ∀ p ∈ generatedDemands cfg uniforms powf draws, 1 ≤ p.amount := by
  rw [generatedDemands, generateDemandPoints]
  split
  · intro p hp; cases hp
  · exact genLoop_amount_ge_one cfg
      (capLookup (calculateAvailableCapacity cfg))
      ((calculateAvailableCapacity cfg).map Prod.fst) draws
      (List.range (truncN cfg).toNat) { used := fun _ => 0, demands := [] }
      (fun p hp => absurd hp (List.not_mem_nil p))

/-- A successful `Generate` returns either the early empty list or the
loop's output. -/
theorem generate_ok_cases (cfg : DemandGenConfig) (uniforms : ℕ → ℚ)
    (powf : ℚ → ℚ → ℚ) (draws : ℕ → Draw) (ds : List DemandEntry)
    (h : Generate cfg uniforms powf draws = .ok ds) :
    ds = [] ∨ ds = generatedDemands cfg uniforms powf draws := by
  rw [Generate] at h
  split at h
  · exact Or.inl (Except.ok.injEq _ _ ▸ h.symm)
  · split at h
    · exact Or.inr (Except.ok.injEq _ _ ▸ h.symm)
    · cases h

/-- The requested point count, truncated toward zero, never exceeds the
spec's `floor(U · I · T · demand_intensity)` once clamped to `ℕ`. -/
theorem truncN_toNat_le_floor (cfg : DemandGenConfig) :
    (truncN cfg).toNat
      ≤ (⌊((cfg.U * cfg.I * cfg.T : ℕ) : ℚ) * cfg.demand_intensity⌋).toNat := by
  rw [truncN, ratTrunc]
  split
  · exact le_rfl
  · rename_i h
    have hle : ((cfg.U * cfg.I * cfg.T : ℕ) : ℚ) * cfg.demand_intensity ≤ 0 :=
      (not_le.mp h).le
    have : (⌈((cfg.U * cfg.I * cfg.T : ℕ) : ℚ) * cfg.demand_intensity⌉).toNat = 0 :=
      Int.toNat_eq_zero.mpr (Int.ceil_le.mpr (by exact_mod_cast hle))
    rw [this]
    exact Nat.zero_le _

/-- C4: every demand list a successful `Generate` call returns has at
most `floor(U · I · T · demand_intensity)` entries. -/
theorem demandset_cardinality_bound (cfg : DemandGenConfig)
    (uniforms : ℕ → ℚ) (powf : ℚ → ℚ → ℚ) (draws : ℕ → Draw)
    (ds : List DemandEntry)
    (h : Generate cfg uniforms powf draws = .ok ds) :
    ds.length ≤ (⌊((cfg.U * cfg.I * cfg.T : ℕ) : ℚ) * cfg.demand_intensity⌋).toNat := by
  rcases generate_ok_cases cfg uniforms powf draws ds h with rfl | rfl
  · exact Nat.zero_le _
  · exact le_trans (generatedDemands_length_le cfg uniforms powf draws)
      (truncN_toNat_le_floor cfg)

theorem demandset_cardinality_bound_witness :
    Generate cfgS zeroUniforms zeroPow (fun _ => ⟨0, 0, 0, 100⟩)
        = .ok [⟨0, 0, 0, 100⟩]
    ∧ ([(⟨0, 0, 0, 100⟩ : DemandEntry)]).length
        ≤ (⌊((cfgS.U * cfgS.I * cfgS.T : ℕ) : ℚ) * cfgS.demand_intensity⌋).toNat :=
  ⟨by decide,
    demandset_cardinality_bound cfgS zeroUniforms zeroPow (fun _ => ⟨0, 0, 0, 100⟩)
      [⟨0, 0, 0, 100⟩] (by decide)⟩

/-- C10: every entry of a successfully returned demand list has amount
at least `1`: the clamp's floor applies even when the cell's remaining
budget divided by `unit_sX` is below one. -/
theorem demand_amounts_ge_one (cfg : DemandGenConfig)
    (uniforms : ℕ → ℚ) (powf : ℚ → ℚ → ℚ) (draws : ℕ → Draw)
    (ds : List DemandEntry)
    (h : Generate cfg uniforms powf draws = .ok ds) :
    ∀ p ∈ ds, 1 ≤ p.amount := by
  rcases generate_ok_cases cfg uniforms powf draws ds h with rfl | rfl
  · intro p hp; cases hp
  · exact generatedDemands_amounts cfg uniforms powf draws

theorem demand_amounts_ge_one_witness :
    Generate cfgS zeroUniforms zeroPow (fun _ => ⟨0, 0, 0, 100⟩)
        = .ok [⟨0, 0, 0, 100⟩]
    ∧ (⟨0, 0, 0, 100⟩ : DemandEntry) ∈ [(⟨0, 0, 0, 100⟩ : DemandEntry)]
    ∧ 1 ≤ (⟨0, 0, 0, 100⟩ : DemandEntry).amount :=
  ⟨by decide, by decide,
    demand_amounts_ge_one cfgS zeroUniforms zeroPow (fun _ => ⟨0, 0, 0, 100⟩)
      [⟨0, 0, 0, 100⟩] (by decide) ⟨0, 0, 0, 100⟩ (by decide)⟩

/-- The clamped amount, charged at `unit_sX` per unit, stays within the
cell's remaining budget except that the floor at `1` can lift the charge
up to `unit_sX`. -/
theorem clampAmount_mul_le (cfg : DemandGenConfig) (cand avail : ℚ)
    (hsX : 0 < cfg.unit_sX) :
    clampAmount cfg cand avail * cfg.unit_sX ≤ max avail cfg.unit_sX := by
  rw [clampAmount]
  have h1 : max 1 (min cand (avail / cfg.unit_sX)) ≤ max 1 (avail / cfg.unit_sX) :=
    max_le_max le_rfl (min_le_right _ _)
  refine (mul_le_mul_of_nonneg_right h1 hsX.le).trans ?_
  rw [max_mul_of_nonneg _ _ hsX.le, one_mul,
    div_mul_cancel₀ _ (ne_of_gt hsX), max_comm]

/-- The capacity map's key sequence is the plain lexicographic key list. -/
theorem capKeys_eq_lexKeys (cfg : DemandGenConfig) :
    capKeys cfg = lexKeys cfg.U cfg.T := by
  simp [capKeys, calculateAvailableCapacity, List.map_map, Function.comp_def]

/-- C2 (amended): whenever one loop iteration appends a demand point,
the appended `amount · unit_sX` does not exceed the larger of the
selected cell's remaining budget (taken just before the append) and
`unit_sX` itself.  The candidate is clamped to `remaining ÷ unit_sX`, but
the floor at `1` can push the charge above the remaining budget — by at
most `unit_sX` — whenever the remainder is below `unit_sX`. -/
theorem appended_amount_respects_budget (cfg : DemandGenConfig)
    (cap : ℕ × ℕ → ℚ) (keys : List (ℕ × ℕ)) (st : GenState) (d : Draw)
    (p : DemandEntry) (hsX : 0 < cfg.unit_sX)
    (h : (genStep cfg cap keys st d).demands = st.demands ++ [p]) :
    p.amount * cfg.unit_sX
      ≤ max (cap (p.u, p.t) - st.used (p.u, p.t)) cfg.unit_sX := by
  simp only [genStep] at h
  by_cases hav : cap (d.u, d.t) - st.used (d.u, d.t) ≤ 0
  · rw [if_pos hav] at h
    cases hf : keys.find? (fun k => decide (0 < cap k - st.used k)) with
    | none =>
        rw [hf] at h
        have := congrArg List.length h
        simp at this
    | some k =>
        rw [hf] at h
        simp only [emitPoint] at h
        have hqp : (⟨k.1, d.i, k.2,
            clampAmount cfg d.cand (cap k - st.used k)⟩ : DemandEntry) = p :=
          by simpa using List.append_cancel_left h
        subst hqp
        simpa using clampAmount_mul_le cfg d.cand (cap (k.1, k.2) - st.used (k.1, k.2)) hsX
  · rw [if_neg hav] at h
    simp only [emitPoint] at h
    have hqp : (⟨d.u, d.i, d.t,
        clampAmount cfg d.cand (cap (d.u, d.t) - st.used (d.u, d.t))⟩ : DemandEntry) = p :=
      by simpa using List.append_cancel_left h
    subst hqp
    exact clampAmount_mul_le cfg d.cand (cap (d.u, d.t) - st.used (d.u, d.t)) hsX


/-- C2 counterexample: at the concrete state above, the iteration appends
a point of amount `1`, whose capacity charge `1 · unit_sX = 1` strictly
exceeds the cell's remaining budget `0.3` at the moment of the append —
refuting the claim that the appended `amount · unit_sX` never exceeds the
remaining budget. -/
theorem appended_amount_can_exceed_remaining :
    (genStep cfgC1 capC2 [(0, 0)] stC2 dC2).demands
        = stC2.demands ++ [⟨0, 0, 0, 1⟩]
    ∧ ¬((⟨0, 0, 0, 1⟩ : DemandEntry).amount * cfgC1.unit_sX
        ≤ capC2 (0, 0) - stC2.used (0, 0)) := by
  exact ⟨by decide, by decide⟩


theorem appended_amount_respects_budget_witness :
    0 < cfgC1.unit_sX
    ∧ (genStep cfgC1 capW [(0, 0)] stW dW).demands
        = stW.demands ++ [⟨0, 0, 0, 5⟩]
    ∧ (⟨0, 0, 0, 5⟩ : DemandEntry).amount * cfgC1.unit_sX
        ≤ max (capW ((⟨0, 0, 0, 5⟩ : DemandEntry).u, (⟨0, 0, 0, 5⟩ : DemandEntry).t)
              - stW.used ((⟨0, 0, 0, 5⟩ : DemandEntry).u, (⟨0, 0, 0, 5⟩ : DemandEntry).t))
            cfgC1.unit_sX :=
  ⟨by decide, by decide,
    appended_amount_respects_budget cfgC1 capW [(0, 0)] stW dW ⟨0, 0, 0, 5⟩
      (by decide) (by decide)⟩

/-- C6: when the drawn cell's remaining capacity is non-positive, the
point is redirected to the first cell — in the capacity map's key order,
which is strictly lexicographic on `(node, period)` — whose
budget-minus-used remainder is positive; and when no cell in the whole
map has a positive remainder, the point is dropped: the state, demand
list and used-capacity map alike, is returned unchanged. -/
theorem exhausted_cell_fallback (cfg : DemandGenConfig) (st : GenState) (d : Draw)
    (h : capFn cfg (d.u, d.t) - st.used (d.u, d.t) ≤ 0) :
    (capKeys cfg).Pairwise keyLt
    ∧ (∀ k₀, (capKeys cfg).find? (fun k => decide (0 < capFn cfg k - st.used k)) = some k₀ →
        0 < capFn cfg k₀ - st.used k₀
        ∧ (genStep cfg (capFn cfg) (capKeys cfg) st d).demands
            = st.demands ++ [⟨k₀.1, d.i, k₀.2,
                clampAmount cfg d.cand (capFn cfg k₀ - st.used k₀)⟩])
    ∧ ((∀ k ∈ capKeys cfg, capFn cfg k - st.used k ≤ 0) →
        genStep cfg (capFn cfg) (capKeys cfg) st d = st) := by
  refine ⟨capKeys_eq_lexKeys cfg ▸ lexKeys_pairwise cfg.U cfg.T, ?_, ?_⟩
  · intro k₀ hk₀
    refine ⟨of_decide_eq_true
      (@List.find?_some _ (fun k => decide (0 < capFn cfg k - st.used k)) k₀
        (capKeys cfg) hk₀), ?_⟩
    simp only [genStep]
    rw [if_pos h, hk₀]
    rfl
  · intro hall
    have hnone : (capKeys cfg).find?
        (fun k => decide (0 < capFn cfg k - st.used k)) = none :=
      List.find?_eq_none.mpr (fun k hk => by
        simpa using not_lt.mpr (hall k hk))
    simp only [genStep]
    rw [if_pos h, hnone]


theorem exhausted_cell_fallback_witness :
    capFn cfg6 (d6.u, d6.t) - st6.used (d6.u, d6.t) ≤ 0
    ∧ (∀ k ∈ capKeys cfg6, capFn cfg6 k - st6.used k ≤ 0)
    ∧ genStep cfg6 (capFn cfg6) (capKeys cfg6) st6 d6 = st6 :=
  ⟨by decide, by decide,
    (exhausted_cell_fallback cfg6 st6 d6 (by decide)).2.2 (by decide)⟩

/-- C9: with a non-zero requested point count, `Generate` fails exactly
when some cell's recomputed usage exceeds that cell's budget by more than
1%; the reported error carries the offending node, period, the recomputed
usage of that cell and its budget; and on failure no demand list is
returned (the model's only error value is the feasibility report). -/
theorem generate_error_characterization (cfg : DemandGenConfig)
    (uniforms : ℕ → ℚ) (powf : ℚ → ℚ → ℚ) (draws : ℕ → Draw)
    (hn : truncN cfg ≠ 0) :
    (∀ e, Generate cfg uniforms powf draws = .error e →
        e.usage = actualUsage cfg (generatedDemands cfg uniforms powf draws)
            (e.node, e.period)
        ∧ e.capacity = capFn cfg (e.node, e.period)
        ∧ e.capacity * (101 / 100) < e.usage)
    ∧ ((∃ k ∈ presentKeys (capKeys cfg) (generatedDemands cfg uniforms powf draws),
          capFn cfg k * (101 / 100)
            < actualUsage cfg (generatedDemands cfg uniforms powf draws) k)
        ↔ ∃ e, Generate cfg uniforms powf draws = .error e) := by
  simp only [capKeys, capFn]
  cases hf : (presentKeys ((calculateAvailableCapacity cfg).map Prod.fst)
        (generatedDemands cfg uniforms powf draws)).find?
      (fun k => decide (capLookup (calculateAvailableCapacity cfg) k * (101 / 100)
        < actualUsage cfg (generatedDemands cfg uniforms powf draws) k)) with
  | none =>
    have hv : verifyFeasibility cfg (generatedDemands cfg uniforms powf draws)
        (calculateAvailableCapacity cfg) = .ok () := by
      simp only [verifyFeasibility]
      rw [hf]
    have hok : Generate cfg uniforms powf draws
        = .ok (generatedDemands cfg uniforms powf draws) := by
      rw [Generate, if_neg hn, hv]
    simp only [hok]
    refine ⟨fun e he => Except.noConfusion he, ?_⟩
    constructor
    · rintro ⟨k, hk, hlt⟩
      exact absurd hlt (by simpa using List.find?_eq_none.mp hf k hk)
    · rintro ⟨e, he⟩
      exact Except.noConfusion he
  | some k =>
    have hv : verifyFeasibility cfg (generatedDemands cfg uniforms powf draws)
        (calculateAvailableCapacity cfg)
        = .error ⟨k.1, k.2,
            actualUsage cfg (generatedDemands cfg uniforms powf draws) k,
            capLookup (calculateAvailableCapacity cfg) k⟩ := by
      simp only [verifyFeasibility]
      rw [hf]
    have herr : Generate cfg uniforms powf draws
        = .error ⟨k.1, k.2,
            actualUsage cfg (generatedDemands cfg uniforms powf draws) k,
            capLookup (calculateAvailableCapacity cfg) k⟩ := by
      rw [Generate, if_neg hn, hv]
    have hpred : capLookup (calculateAvailableCapacity cfg) k * (101 / 100)
        < actualUsage cfg (generatedDemands cfg uniforms powf draws) k :=
      of_decide_eq_true
        (@List.find?_some _
          (fun k => decide (capLookup (calculateAvailableCapacity cfg) k * (101 / 100)
            < actualUsage cfg (generatedDemands cfg uniforms powf draws) k)) k _ hf)
    simp only [herr]
    constructor
    · intro e he
      have he' := (Except.error.injEq _ _).mp he
      subst he'
      refine ⟨by rw [Prod.mk.eta], by rw [Prod.mk.eta], hpred⟩
    · exact iff_of_true ⟨k, List.mem_of_find?_eq_some hf, hpred⟩ ⟨_, rfl⟩

theorem generate_error_characterization_witness :
    truncN cfgC1 ≠ 0
    ∧ ∃ e, Generate cfgC1 zeroUniforms zeroPow drawsC1 = .error e :=
  ⟨by decide,
    (generate_error_characterization cfgC1 zeroUniforms zeroPow drawsC1
        (by decide)).2.mp ⟨(0, 0), by decide, by decide⟩⟩

/-- C1 (refuted — defect in the code): every drawn index below is inside
its axis range and every candidate amount is inside the support
`[min_demand, max_demand)` of `amount_dist` — draws the real
distributions can produce — yet `Generate` on `cfgC1` throws the
feasibility error for node 0, period 0 with usage `2.7 > 2 · 1.01`: the
first point (candidate `1.7`) leaves cell `(0,0)` a remainder of `0.3`,
and the second point's clamp is floored back up to amount `1`,
overshooting the budget beyond the 1% tolerance.  This contradicts both
the claim and the code's own design notes (`可行性保证` in
`demand_generator.h`; the `这永远不应该发生!` comment at the throw). -/
theorem feasibility_error_reachable :
    (∀ k, (drawsC1 k).t < cfgC1.T ∧ (drawsC1 k).u < cfgC1.U
        ∧ (drawsC1 k).i < cfgC1.I
        ∧ (amountBounds cfgC1 (totalCapacity (calculateAvailableCapacity cfgC1))
            (truncN cfgC1).toNat).1 ≤ (drawsC1 k).cand
        ∧ (drawsC1 k).cand < (amountBounds cfgC1
            (totalCapacity (calculateAvailableCapacity cfgC1)) (truncN cfgC1).toNat).2)
    ∧ Generate cfgC1 zeroUniforms zeroPow drawsC1 = .error ⟨0, 0, 27 / 10, 2⟩ := by
  constructor
  · intro k
    cases k with
    | zero => exact by decide
    | succ n =>
        have hd : drawsC1 (n + 1) = ⟨0, 0, 0, 3 / 2⟩ := rfl
        rw [hd]
        exact by decide
  · decide

end GMNTG
